import Mathlib

/- Verification development for the journal-app frontend store
   (src/lib/store.ts), the chat API wrapper (src/lib/api.ts), the chat
   page flow (src/pages/Chat.tsx), the prompt-builder blueprint, and the
   specified retrieval engine. -/

namespace JournalApp

/-! ## Data model, from src/src/lib/store.ts -/

/-- Journal entry record, embedding the `JournalEntry` interface of
store.ts.  Optional TS fields (`mood?`, `tags?`) become `Option`. -/
structure JournalEntry where
  id : String
  userId : String
  title : String
  body : String
  createdAt : String
  updatedAt : String
  mood : Option String
  tags : Option (List String)
  deriving DecidableEq, Repr

/-- Chat message record, embedding the `ChatMessage` interface of
store.ts. -/
structure ChatMessage where
  id : String
  content : String
  isUser : Bool
  timestamp : String
  sources : Option (List String)
  deriving DecidableEq, Repr

/-- Application state, embedding the state fields of the zustand store in
store.ts.  The TS string-literal unions (`theme`, `currentPage`) are
modelled as `String`. -/
structure AppState where
  userId : Option String
  theme : String
  currentPage : String
  entries : List JournalEntry
  currentEntry : Option JournalEntry
  isLoading : Bool
  chatMessages : List ChatMessage
  isChatLoading : Bool
  searchQuery : String
  searchResults : List JournalEntry
  deriving DecidableEq, Repr

/-- The initial store state of store.ts. -/
def initialState : AppState :=
  { userId := none
    theme := "light"
    currentPage := "timeline"
    entries := []
    currentEntry := none
    isLoading := false
    chatMessages := []
    isChatLoading := false
    searchQuery := ""
    searchResults := [] }

/-! ## localStorage model

`initializeApp` and `setTheme` read and write the browser localStorage.
It is modelled as an association list keyed by strings; `lsSetItem`
overrides any previous binding of the key, as `localStorage.setItem`
does. -/

/-- Browser localStorage modelled as an association list. -/
def LocalStorage : Type := List (String × String)

/-- Model of `localStorage.getItem`. -/
def lsGetItem (ls : LocalStorage) (k : String) : Option String :=
  (List.find? (fun p => p.1 == k) ls).map (fun p => p.2)

/-- Model of `localStorage.setItem`: the new binding shadows old ones. -/
def lsSetItem (ls : LocalStorage) (k v : String) : LocalStorage :=
  (k, v) :: List.filter (fun p => p.1 != k) ls

/-! ## Store actions, from src/src/lib/store.ts -/

/-- Embedding of store.ts `initializeApp`: load the saved theme and the
saved user id from localStorage, when present.  The TS guards
`if (savedTheme)` and `if (savedUserId)` are JS truthiness tests, which
are false for the empty string, hence the `isEmpty` tests. -/
def initializeApp (ls : LocalStorage) (s : AppState) : AppState :=
  let s1 :=
    match lsGetItem ls "journal-app-theme" with
    | some t => if t.isEmpty then s else { s with theme := t }
    | none => s
  match lsGetItem ls "journal-app-user-id" with
  | some u => if u.isEmpty then s1 else { s1 with userId := some u }
  | none => s1

/-- Embedding of store.ts `setTheme`: persist the theme under the key
`journal-app-theme` and set it in the state. -/
def setTheme (t : String) (s : AppState) (ls : LocalStorage) :
    AppState × LocalStorage :=
  ({ s with theme := t }, lsSetItem ls "journal-app-theme" t)

/-- Embedding of store.ts `setEntries`. -/
def setEntries (es : List JournalEntry) (s : AppState) : AppState :=
  { s with entries := es }

/-- Embedding of store.ts `addEntry`: the new entry is prepended. -/
def addEntry (e : JournalEntry) (s : AppState) : AppState :=
  { s with entries := e :: s.entries }

/-- A `Partial<JournalEntry>` value of store.ts `updateEntry`: every
field is optional; an absent field leaves the entry's field unchanged
under the TS spread `\x7b ...entry, ...updates \x7d`. -/
structure EntryUpdate where
  id : Option String
  userId : Option String
  title : Option String
  body : Option String
  createdAt : Option String
  updatedAt : Option String
  mood : Option (Option String)
  tags : Option (Option (List String))
  deriving DecidableEq, Repr

/-- The update with no field present. -/
def EntryUpdate.empty : EntryUpdate :=
  { id := none, userId := none, title := none, body := none
    createdAt := none, updatedAt := none, mood := none, tags := none }

/-- The TS spread `\x7b ...entry, ...updates \x7d`: fields present in
the update override the entry's fields. -/
def applyUpdate (e : JournalEntry) (u : EntryUpdate) : JournalEntry :=
  { id := u.id.getD e.id
    userId := u.userId.getD e.userId
    title := u.title.getD e.title
    body := u.body.getD e.body
    createdAt := u.createdAt.getD e.createdAt
    updatedAt := u.updatedAt.getD e.updatedAt
    mood := u.mood.getD e.mood
    tags := u.tags.getD e.tags }

/-- Embedding of store.ts `updateEntry`: map over `entries`, replacing
the entry whose id matches, and update `currentEntry` the same way when
its id matches. -/
def updateEntry (i : String) (u : EntryUpdate) (s : AppState) : AppState :=
  { s with
    entries := s.entries.map (fun e => if e.id == i then applyUpdate e u else e)
    currentEntry :=
      match s.currentEntry with
      | some ce => if ce.id == i then some (applyUpdate ce u) else some ce
      | none => none }

/-- Embedding of store.ts `deleteEntry`: filter the entry out of
`entries` and clear `currentEntry` when it is the deleted one.  No other
state field is touched. -/
def deleteEntry (i : String) (s : AppState) : AppState :=
  { s with
    entries := s.entries.filter (fun e => e.id != i)
    currentEntry :=
      match s.currentEntry with
      | some ce => if ce.id == i then none else some ce
      | none => none }

/-- Embedding of store.ts `addChatMessage`: append at the end. -/
def addChatMessage (m : ChatMessage) (s : AppState) : AppState :=
  { s with chatMessages := s.chatMessages ++ [m] }

/-- Embedding of store.ts `setChatMessages`: replace the whole list. -/
def setChatMessages (ms : List ChatMessage) (s : AppState) : AppState :=
  { s with chatMessages := ms }

/-- Embedding of store.ts `setSearchResults`. -/
def setSearchResults (rs : List JournalEntry) (s : AppState) : AppState :=
  { s with searchResults := rs }

end JournalApp

/-! ## Claim C9 -/

namespace JournalApp

/-- C9: for every entry `e` and store state `s`, `addEntry e` produces an
entries list equal to `e` followed by the previous entries list in its
previous order: the new entry is prepended and no previously stored entry
is modified or dropped. -/
theorem c9_addEntry_prepends (e : JournalEntry) (s : AppState) :
    (addEntry e s).entries = e :: s.entries := rfl

end JournalApp

/-! ## Claim C8 -/

namespace JournalApp

/-- C8: `updateEntry` keeps the entries list's length and order, leaves
every entry whose id differs from the given id exactly equal to its
previous value, and leaves every store field other than `entries` and
`currentEntry` (userId, theme, currentPage, isLoading, chatMessages,
isChatLoading, searchQuery, searchResults) unchanged. -/
theorem c8_updateEntry_frame (i : String) (u : EntryUpdate) (s : AppState) :
    (updateEntry i u s).entries.length = s.entries.length
    ∧ (∀ (n : Nat) (e : JournalEntry), s.entries[n]? = some e → e.id ≠ i →
        (updateEntry i u s).entries[n]? = some e)
    ∧ (updateEntry i u s).userId = s.userId
    ∧ (updateEntry i u s).theme = s.theme
    ∧ (updateEntry i u s).currentPage = s.currentPage
    ∧ (updateEntry i u s).isLoading = s.isLoading
    ∧ (updateEntry i u s).chatMessages = s.chatMessages
    ∧ (updateEntry i u s).isChatLoading = s.isChatLoading
    ∧ (updateEntry i u s).searchQuery = s.searchQuery
    ∧ (updateEntry i u s).searchResults = s.searchResults := by
  refine ⟨?_, ?_, rfl, rfl, rfl, rfl, rfl, rfl, rfl, rfl⟩
  · simp [updateEntry]
  · intro n e hn hne
    have hbe : (e.id == i) = false := by
      simpa [beq_iff_eq] using hne
    have : (updateEntry i u s).entries[n]? =
        Option.map (fun x => if x.id == i then applyUpdate x u else x)
          s.entries[n]? := by
      simp [updateEntry]
    rw [this, hn]
    simp [hbe]
    exact fun hcontra => absurd hcontra hne

/-- Witness for C8 at a concrete state: the entry with a different id is
untouched by the update. -/
theorem c8_witness :
    (updateEntry "a"
        { EntryUpdate.empty with title := some "T" }
        { initialState with entries :=
            [⟨"a", "u", "t1", "b1", "c1", "m1", none, none⟩,
             ⟨"b", "u", "t2", "b2", "c2", "m2", none, none⟩] }).entries[1]?
      = some ⟨"b", "u", "t2", "b2", "c2", "m2", none, none⟩ :=
  (c8_updateEntry_frame "a"
      { EntryUpdate.empty with title := some "T" }
      { initialState with entries :=
          [⟨"a", "u", "t1", "b1", "c1", "m1", none, none⟩,
           ⟨"b", "u", "t2", "b2", "c2", "m2", none, none⟩] }).2.1 1
    ⟨"b", "u", "t2", "b2", "c2", "m2", none, none⟩ (by decide) (by decide)

end JournalApp

/-! ## Claim C2 -/

namespace JournalApp

/-- A concrete journal entry used in counterexample states. -/
def entryE1 : JournalEntry :=
  ⟨"e1", "u1", "Gratitude", "body text", "2024-01-01", "2024-01-01", none, none⟩

/-- A concrete store state in which the entry `entryE1` is present both in
`entries` and in the currently displayed `searchResults`. -/
def stateC2 : AppState :=
  { initialState with entries := [entryE1], searchResults := [entryE1] }

/-- C2 counterexample: store.ts `deleteEntry` removes the entry from
`entries`, but the `searchResults` list — an observable place search
results are read from (rendered by Search.tsx) — still references the
deleted entryId afterwards.  So deletion does not remove the entry's data
everywhere results can be read from. -/
theorem c2_counterexample :
    (deleteEntry "e1" stateC2).entries = []
    ∧ (deleteEntry "e1" stateC2).searchResults.any
        (fun e => e.id == "e1") = true := by
  constructor <;> decide

/-- C2 amended: `deleteEntry` removes every entry with the given id from
`entries` and clears a matching `currentEntry`, but it leaves
`searchResults` (and the chat messages with their cited sources) exactly
as they were, so previously fetched search results may still reference
the deleted entryId until a new search replaces them. -/
theorem c2_deleteEntry_amended (i : String) (s : AppState) :
    (∀ e, e ∈ (deleteEntry i s).entries → e.id ≠ i)
    ∧ (∀ ce, (deleteEntry i s).currentEntry = some ce → ce.id ≠ i)
    ∧ (deleteEntry i s).searchResults = s.searchResults
    ∧ (deleteEntry i s).chatMessages = s.chatMessages := by
  refine ⟨?_, ?_, rfl, rfl⟩
  · intro e he
    have := List.of_mem_filter he
    simpa [bne_iff_ne] using this
  · intro ce hce
    simp only [deleteEntry] at hce
    cases hc : s.currentEntry with
    | none => simp [hc] at hce
    | some c =>
      simp only [hc] at hce
      by_cases h : c.id == i
      · simp [h] at hce
      · simp only [h, if_neg] at hce
        cases hce
        simpa [beq_iff_eq] using h

/-- Witness for C2's amended theorem at a concrete deleted state. -/
theorem c2_witness :
    entryE1.id ≠ "e2"
    ∧ (deleteEntry "e2" stateC2).searchResults = stateC2.searchResults :=
  ⟨(c2_deleteEntry_amended "e2" stateC2).1 entryE1 (by decide),
   (c2_deleteEntry_amended "e2" stateC2).2.2.1⟩

end JournalApp

/-! ## Claim C4 -/

namespace JournalApp

/-- A concrete chat turn used in the C4 counterexample. -/
def msgC4 : ChatMessage :=
  ⟨"user-1", "hello", true, "2024-01-01T00:00:00Z", none⟩

/-- A concrete store state with one recorded chat turn. -/
def stateC4 : AppState := { initialState with chatMessages := [msgC4] }

/-- C4 counterexample: the store's `setChatMessages` operation (store.ts,
inside the cited chat-action block) replaces the whole recorded list: on
a state with one recorded turn it can yield zero turns.  An operation
that appends keeps or grows the length and an operation that leaves the
turns unchanged keeps it, so the conversation log is not append-only
under every store operation. -/
theorem c4_counterexample :
    (setChatMessages [] stateC4).chatMessages.length = 0
    ∧ stateC4.chatMessages.length = 1
    ∧ (setChatMessages [] stateC4).chatMessages ≠ stateC4.chatMessages := by
  refine ⟨rfl, rfl, ?_⟩
  decide

/-- C4 amended: `addChatMessage` — the only chat-turn operation the app's
pages invoke — is append-only: it appends the new turn at the end and
preserves every previously recorded turn in order; but the store also
exposes `setChatMessages`, which replaces the recorded list wholesale
rather than appending. -/
theorem c4_append_amended :
    (∀ (m : ChatMessage) (s : AppState),
      (addChatMessage m s).chatMessages = s.chatMessages ++ [m])
    ∧ (∀ (ms : List ChatMessage) (s : AppState),
      (setChatMessages ms s).chatMessages = ms) :=
  ⟨fun _ _ => rfl, fun _ _ => rfl⟩

end JournalApp

/-! ## Claim C10 -/

namespace JournalApp

/-- Reading a key just written returns the written value (localStorage
setItem/getItem round-trip). -/
theorem lsGetItem_lsSetItem (ls : LocalStorage) (k v : String) :
    lsGetItem (lsSetItem ls k v) k = some v := by
  simp [lsGetItem, lsSetItem]

/-- C10: theme persistence round-trips: for a theme `t` in
`\x7blight, dark\x7d`, after `setTheme t` writes `t` under the key
`journal-app-theme`, a subsequent `initializeApp` reading the same
localStorage sets the store's theme back to `t` — from any state it is
initialising. -/
theorem c10_theme_roundtrip (t : String) (h : t = "light" ∨ t = "dark")
    (s s2 : AppState) (ls : LocalStorage) :
    (initializeApp (setTheme t s ls).2 s2).theme = t := by
  have hne : t.isEmpty = false := by
    rcases h with h | h <;> subst h <;> decide
  simp only [initializeApp, setTheme, lsGetItem_lsSetItem, hne]
  cases hu : lsGetItem (lsSetItem ls "journal-app-theme" t) "journal-app-user-id" with
  | none => simp
  | some u =>
    by_cases he : u.isEmpty <;> simp [he]

/-- Witness for C10 at the concrete theme `dark` and empty storage. -/
theorem c10_witness :
    (initializeApp (setTheme "dark" initialState ([] : LocalStorage)).2
        initialState).theme = "dark" :=
  c10_theme_roundtrip "dark" (Or.inr rfl) initialState initialState []

end JournalApp

/-! ## Chat API, from src/src/lib/api.ts and src/src/pages/Chat.tsx -/

namespace JournalApp

/-- The `ChatRequest` interface of api.ts: the payload sent to the
backend `chat_with_ai` command. -/
structure ChatRequest where
  user_id : String
  message : String
  conversation_id : Option String
  deriving DecidableEq, Repr

/-- The `ChatResponse` interface of api.ts: what the backend returns to
the chat feature.  Its fields are `answer`, `sources` and
`conversation_id`; the sources (`any[]` in TS) are modelled as the cited
content strings the chat page reads out of them. -/
structure ChatResponse where
  answer : String
  sources : List String
  conversation_id : String
  deriving DecidableEq, Repr

/-- The field names of the `ChatResponse` interface, transcribed from
api.ts (and matching the documented response format of the backend RAG
service: answer, sources, conversation_id). -/
def chatResponseFieldNames : List String :=
  ["answer", "sources", "conversation_id"]

/-- Embedding of api.ts `chatApi.sendMessage`.  The backend
(`invoke('chat_with_ai', ...)`) is an external collaborator, passed as a
function from the request to its response.  With no initialized userId
the call throws `User not initialized` before the backend is invoked;
otherwise it forwards the backend's response unchanged. -/
def sendMessage (backend : ChatRequest → ChatResponse)
    (userId : Option String) (message : String) : Except String ChatResponse :=
  match userId with
  | none => Except.error "User not initialized"
  | some uid =>
      Except.ok (backend { user_id := uid, message := message, conversation_id := none })

/-- Whitespace test for the JS `String.prototype.trim` model. -/
def isWhitespaceChar (c : Char) : Bool :=
  c == ' ' || c == '\t' || c == '\n' || c == '\r'

/-- Model of JS `message.trim()`: strip leading and trailing
whitespace. -/
def jsTrim (s : String) : String :=
  String.mk
    (((s.data.dropWhile isWhitespaceChar).reverse.dropWhile
        isWhitespaceChar).reverse)

/-- The user-turn chat message Chat.tsx builds before sending; `now`
stands for the `Date.now()` timestamp. -/
def mkUserMessage (content now : String) : ChatMessage :=
  ⟨"user-" ++ now, content, true, now, none⟩

/-- The assistant-turn chat message Chat.tsx builds from a backend
response: its content is the answer, its sources the cited content. -/
def mkAiMessage (resp : ChatResponse) (now : String) : ChatMessage :=
  ⟨"ai-" ++ now, resp.answer, false, now, some resp.sources⟩

/-- The error chat message Chat.tsx appends when sendMessage throws. -/
def mkErrorMessage (now : String) : ChatMessage :=
  ⟨"error-" ++ now, "I apologize, but I encountered an error. Please try again.",
   false, now, none⟩

/-- Embedding of Chat.tsx `handleSendMessage`, acting on the recorded
chat turns.  An empty (whitespace-only) input, or a send while a chat
call is already in flight, returns immediately: no turn is appended, no
backend call is made, and no error is raised.  Otherwise the trimmed user
turn is appended and the api.ts `sendMessage` result is appended as
either an assistant turn or the catch-branch error turn. -/
def handleSendMessage (backend : ChatRequest → ChatResponse)
    (userId : Option String) (message : String) (isChatLoading : Bool)
    (now : String) (msgs : List ChatMessage) : List ChatMessage :=
  if (jsTrim message).isEmpty || isChatLoading then msgs
  else
    let msgs1 := msgs ++ [mkUserMessage (jsTrim message) now]
    match sendMessage backend userId (jsTrim message) with
    | Except.ok resp => msgs1 ++ [mkAiMessage resp now]
    | Except.error _ => msgs1 ++ [mkErrorMessage now]

end JournalApp

/-! ## Claim C1 -/

namespace JournalApp

/-- C1 counterexample: the chat result type of api.ts carries no boolean
`degraded` flag at all — its fields are exactly `answer`, `sources` and
`conversation_id` — so the query-facing chat API cannot report degraded
(keyword-only) retrieval to its caller, for any call. -/
theorem c1_counterexample :
    "degraded" ∉ chatResponseFieldNames
    ∧ "answer" ∈ chatResponseFieldNames
    ∧ "sources" ∈ chatResponseFieldNames := by
  refine ⟨?_, ?_, ?_⟩ <;> decide

/-- C1 amended: for every initialized user, `sendMessage` returns (as a
success, whatever the backend does) exactly the backend's `ChatResponse`,
which carries an answer, the cited sources and a conversation id — and
nothing else: the interface has no `degraded` flag, so embedding-provider
unavailability is not surfaced to the chat caller. -/
theorem c1_chat_response_shape (backend : ChatRequest → ChatResponse)
    (uid message : String) :
    (sendMessage backend (some uid) message).isOk = true
    ∧ (∀ r : ChatResponse, sendMessage backend (some uid) message = Except.ok r →
        r = backend { user_id := uid, message := message, conversation_id := none })
    ∧ "degraded" ∉ chatResponseFieldNames := by
  refine ⟨rfl, ?_, by decide⟩
  intro r hr
  simpa [sendMessage] using hr.symm

/-- Witness for C1's amended theorem at a concrete backend and user. -/
theorem c1_witness :
    (⟨"A", [], "default"⟩ : ChatResponse)
      = (fun _ : ChatRequest => (⟨"A", [], "default"⟩ : ChatResponse))
          { user_id := "u", message := "hi", conversation_id := none } :=
  (c1_chat_response_shape (fun _ => ⟨"A", [], "default"⟩) "u" "hi").2.1
    ⟨"A", [], "default"⟩ rfl

end JournalApp

/-! ## Claim C7 -/

namespace JournalApp

/-- A trivial concrete backend used in counterexamples and witnesses. -/
def backend0 : ChatRequest → ChatResponse :=
  fun _ => ⟨"ok", [], "default"⟩

/-- C7 counterexample: an empty query is not reported to the caller as an
error result — Chat.tsx silently ignores it: with an initialized user and
an empty message, `handleSendMessage` leaves the recorded turns exactly
unchanged (in particular no error turn is appended), instead of producing
an error. -/
theorem c7_counterexample :
    handleSendMessage backend0 (some "u") "" false "t0" [] = []
    ∧ handleSendMessage backend0 (some "u") "   " false "t0" [msgC4] = [msgC4] := by
  constructor <;> decide

/-- C7 amended: input handling never crashes the engine, but the two
input errors are treated differently: an empty (whitespace-only) query is
silently ignored by the chat page — state unchanged, no backend call, no
error; whereas sending with no initialized userId fails with the error
`User not initialized` before any backend call is made (the result does
not depend on the backend at all). -/
theorem c7_amended (b b2 : ChatRequest → ChatResponse)
    (userId : Option String) (message now : String) (loading : Bool)
    (msgs : List ChatMessage) :
    ((jsTrim message).isEmpty = true →
      handleSendMessage b userId message loading now msgs = msgs)
    ∧ sendMessage b none message = Except.error "User not initialized"
    ∧ sendMessage b none message = sendMessage b2 none message := by
  refine ⟨?_, rfl, rfl⟩
  intro h
  simp [handleSendMessage, h]

/-- Witness for C7's amended theorem at a concrete empty input. -/
theorem c7_witness :
    handleSendMessage backend0 (some "u") "  " true "t1" [msgC4] = [msgC4]
    ∧ sendMessage backend0 none "hi" = Except.error "User not initialized" :=
  ⟨(c7_amended backend0 backend0 (some "u") "  " "t1" true [msgC4]).1 (by decide),
   (c7_amended backend0 backend0 none "hi" "t1" true [msgC4]).2.1⟩

end JournalApp

/-! ## Claim C6 -/

namespace Blueprint

/-- The `RetrievedDoc` consumed by the blueprint prompt builder
(rag.rs in the PRD's starting blueprint): a date tag and a text
snippet. -/
structure RetrievedDoc where
  date : String
  text : String
  deriving DecidableEq, Repr

/-- Embedding of the blueprint `build_prompt` (rag.rs): bullet-format
each context doc with its date, join with blank lines, and wrap with the
fixed system/user/context/assistant template. -/
def build_prompt (question : String) (ctx : List RetrievedDoc) : String :=
  let ctx_txt := String.intercalate "\n\n"
    (ctx.map (fun d => "• [" ++ d.date ++ "] " ++ d.text))
  "System: You are a reflective journal coach. Cite dates.\n\nUser: "
    ++ question ++ "\n\nContext:\n" ++ ctx_txt ++ "\n\nAssistant:"

/-- C6: the prompt builder is deterministic: two calls with identical
question and identical ranked docs produce equal prompt payloads — there
is no hidden randomness (the source `build_prompt` is a pure function of
the question and the context; it takes no further inputs, a token budget
included). -/
theorem c6_build_prompt_deterministic (q1 q2 : String)
    (ctx1 ctx2 : List RetrievedDoc) (hq : q1 = q2) (hc : ctx1 = ctx2) :
    build_prompt q1 ctx1 = build_prompt q2 ctx2 := by
  rw [hq, hc]

/-- Witness for C6 at a concrete question and context. -/
theorem c6_witness :
    build_prompt "What am I grateful for?" [⟨"2024-01-01", "note"⟩]
      = build_prompt "What am I grateful for?" [⟨"2024-01-01", "note"⟩] :=
  c6_build_prompt_deterministic "What am I grateful for?"
    "What am I grateful for?" [⟨"2024-01-01", "note"⟩]
    [⟨"2024-01-01", "note"⟩] rfl rfl

end Blueprint

/-! ## Chunker model (spec section 4.1)

The chunker itself lives in the repository's backend, which is not under
src/ (only the PRD and the RAG-service README describe it), so it is
modelled from the spec. -/

namespace SpecModel

/-- One produced chunk: a 0-based index and the segment text (spec 4.1:
`chunk(text, targetSize, overlap) -> ordered sequence of (index, text)`). -/
structure ChunkPiece where
  index : Nat
  text : String
  deriving DecidableEq, Repr

/-- True when the text is empty or whitespace-only (spec 4.1 edge
case). -/
def isBlank (s : String) : Bool :=
  s.data.all JournalApp.isWhitespaceChar

/-- Modelled from the spec: the chunking loop.  Starting at the current
position it emits a segment of up to `size` characters and advances by
`stepm1 + 1` characters (the positive step `targetSize - overlap`,
floored at one so consecutive chunks overlap by `overlap` characters and
the loop always advances). -/
def chunkFrom (size stepm1 : Nat) : Nat → List Char → List ChunkPiece
  | _, [] => []
  | idx, c :: rest =>
      ⟨idx, String.mk ((c :: rest).take size)⟩ ::
        chunkFrom size stepm1 (idx + 1) (rest.drop stepm1)
termination_by idx cs => cs.length
decreasing_by
  simp only [List.length_drop, List.length_cons]
  omega

/-- Modelled from the spec: `chunk(text, targetSize, overlap)` splits an
entry's text into overlapping segments; empty or whitespace-only text
yields zero chunks; the function is pure and total (valid-UTF-8 input is
automatic for Lean strings), so it never throws. -/
def chunk (text : String) (targetSize overlap : Nat) : List ChunkPiece :=
  if isBlank text then []
  else chunkFrom (max targetSize 1) (max (targetSize - overlap) 1 - 1) 0 text.data

/-- The chunk indices produced from any start index are consecutive. -/
theorem chunkFrom_map_index (size stepm1 : Nat) :
    ∀ (n : Nat) (cs : List Char), cs.length ≤ n → ∀ idx : Nat,
      (chunkFrom size stepm1 idx cs).map ChunkPiece.index
        = List.range' idx (chunkFrom size stepm1 idx cs).length := by
  intro n
  induction n with
  | zero =>
    intro cs hcs idx
    have : cs = [] := List.eq_nil_of_length_eq_zero (Nat.le_zero.mp hcs)
    subst this
    simp [chunkFrom]
  | succ n ih =>
    intro cs hcs idx
    cases cs with
    | nil => simp [chunkFrom]
    | cons c rest =>
      have hlen : (rest.drop stepm1).length ≤ n := by
        have h1 : rest.length ≤ n := by
          simpa using Nat.succ_le_succ_iff.mp (by simpa using hcs)
        have h2 := List.length_drop stepm1 rest
        omega
      rw [chunkFrom]
      simp only [List.map_cons, List.length_cons]
      rw [ih (rest.drop stepm1) hlen (idx + 1)]
      rw [List.range'_succ]

/-- C5: for every empty or whitespace-only input text `chunk` returns
zero chunks; and for every input text and configuration, `chunk`
terminates normally, returning a well-formed chunk list whose 0-based
indices are exactly `0, 1, ...` (it is a total Lean function, so it can
raise no error), nonempty whenever the text is not blank. -/
theorem c5_chunk_total (text : String) (targetSize overlap : Nat) :
    (isBlank text = true → chunk text targetSize overlap = [])
    ∧ (chunk text targetSize overlap).map ChunkPiece.index
        = List.range (chunk text targetSize overlap).length
    ∧ (isBlank text = false → chunk text targetSize overlap ≠ []) := by
  refine ⟨?_, ?_, ?_⟩
  · intro h
    simp [chunk, h]
  · by_cases h : isBlank text
    · simp [chunk, h]
    · simp only [chunk, h, if_false, Bool.false_eq_true]
      rw [List.range_eq_range']
      exact chunkFrom_map_index _ _ text.data.length text.data (Nat.le_refl _) 0
  · intro h
    simp only [chunk, h, Bool.false_eq_true, if_false]
    cases hd : text.data with
    | nil =>
      exfalso
      have : isBlank text = true := by
        simp [isBlank, hd]
      rw [this] at h
      cases h
    | cons c rest =>
      rw [chunkFrom]
      exact List.cons_ne_nil _ _

/-- Witness for C5: a whitespace-only text yields zero chunks and a
nonblank text yields a nonempty chunk list, at the spec's 500/50
configuration. -/
theorem c5_witness :
    chunk "  " 500 50 = [] ∧ chunk "hi" 500 50 ≠ [] :=
  ⟨(c5_chunk_total "  " 500 50).1 (by decide),
   (c5_chunk_total "hi" 500 50).2.2 (by decide)⟩

end SpecModel

/-! ## Hybrid retriever model (spec section 4.4)

The hybrid retriever lives in the repository's backend, which is not
under src/ (the frontend only calls it through the `search_entries` and
`chat_with_ai` commands), so it is modelled from the spec. -/

namespace SpecModel

/-- Modelled from the spec: a journal entry as the Index Store holds it,
with `createdAt` as a numeric timestamp. -/
structure Entry where
  id : String
  userId : String
  title : String
  body : String
  createdAt : Nat
  deriving DecidableEq, Repr

/-- Modelled from the spec: a derived chunk row of the Index Store
(owning entryId, denormalized userId, 0-based chunkIndex, text). -/
structure Chunk where
  id : String
  entryId : String
  userId : String
  chunkIndex : Nat
  text : String
  deriving DecidableEq, Repr

/-- Modelled from the spec: the Index Store contents a query reads —
per-user entries and their derived chunks. -/
structure IndexStore where
  entries : List Entry
  chunks : List Chunk
  deriving Repr

/-- Modelled from the spec: the transient `RetrievedDoc` — entryId, date,
text, fused score and the contributing sub-scores, plus the chunk index
used by the tie-break. -/
structure RetrievedDoc where
  entryId : String
  date : Nat
  chunkIndex : Nat
  text : String
  keywordScore : Rat
  vectorScore : Rat
  recencyScore : Rat
  score : Rat
  deriving DecidableEq, Repr

/-- Modelled from the spec: the Embedding Provider is an external
collaborator (`embed(text) -> vector`, failing with
`ProviderUnavailable`); the retriever consumes only the cosine
similarity between the query's and a chunk's embedding, so the provider
is modelled by that induced similarity function, and `none` models the
`ProviderUnavailable` condition for the whole call. -/
def EmbeddingProvider : Type := String → String → Rat

/-- Default fusion weight of the keyword signal (spec: 0.4). -/
def wKeyword : Rat := 2 / 5

/-- Default fusion weight of the vector signal (spec: 0.4). -/
def wVector : Rat := 2 / 5

/-- Default fusion weight of the recency signal (spec: 0.2). -/
def wRecency : Rat := 1 / 5

/-- Implementation-chosen minimum relevance floor (spec: results must
clear a minimum relevance floor): the fused score a doc has with no
keyword and no vector signal at all is at most `wRecency * 1 = 1/5`, so
the floor is set there — recency alone is not relevance. -/
def minRelevanceFloor : Rat := 1 / 5

/-- Split a text into whitespace-separated words. -/
def wordsAux : List Char → List Char → List String
  | acc, [] => if acc.isEmpty then [] else [String.mk acc.reverse]
  | acc, c :: rest =>
      if JournalApp.isWhitespaceChar c then
        (if acc.isEmpty then [] else [String.mk acc.reverse]) ++ wordsAux [] rest
      else wordsAux (c :: acc) rest

/-- The words of a text. -/
def wordsOf (s : String) : List String := wordsAux [] s.data

/-- Modelled from the spec: keyword relevance, a frequency-based
normalization in `[0,1]` — the fraction of the query's terms that occur
as words of the chunk text (monotonic: more matching terms never score
lower). -/
def keywordScoreOf (query text : String) : Rat :=
  let terms := wordsOf query
  let tws := wordsOf text
  ((terms.filter (fun t => tws.contains t)).length : Rat) / (max terms.length 1 : Nat)

/-- Clamp a similarity into `[0,1]` (spec: cosine scores in `[-1,1]`,
clamped/normalized to `[0,1]`). -/
def clamp01 (x : Rat) : Rat := max 0 (min 1 x)

/-- Modelled from the spec: recency boost, a monotonically decreasing
function of age capped at 1 (an exponential-decay-style `1/(1+age)`). -/
def recencyBoost (now createdAt : Nat) : Rat :=
  1 / (1 + ((now - createdAt : Nat) : Rat))

/-- Build the `RetrievedDoc` for one chunk: sub-scores plus the fused
weighted sum (spec: `fused = w_k * keyword + w_v * vector + w_r *
recency`; with the provider unavailable the vector term is 0, i.e. `w_v`
effectively 0). -/
def mkDoc (emb : Option EmbeddingProvider) (now : Nat) (query : String)
    (c : Chunk) (e : Entry) : RetrievedDoc :=
  let ks := keywordScoreOf query c.text
  let vs := match emb with
    | none => 0
    | some sim => clamp01 (sim query c.text)
  let rb := recencyBoost now e.createdAt
  { entryId := c.entryId
    date := e.createdAt
    chunkIndex := c.chunkIndex
    text := c.text
    keywordScore := ks
    vectorScore := vs
    recencyScore := rb
    score := wKeyword * ks + wVector * vs + wRecency * rb }

/-- The scored candidate docs for one query: the user's chunks joined to
their (still existing, same-user) entries. -/
def candidates (idx : IndexStore) (emb : Option EmbeddingProvider)
    (now : Nat) (uid query : String) : List RetrievedDoc :=
  idx.chunks.filterMap (fun c =>
    if c.userId == uid then
      match idx.entries.find? (fun e => e.id == c.entryId && e.userId == uid) with
      | some e => some (mkDoc emb now query c e)
      | none => none
    else none)

/-- The ranking order of spec 4.4 step 5: fused score descending, ties
broken by more-recent date, then by lower chunk index. -/
def docLE (a b : RetrievedDoc) : Prop :=
  b.score < a.score
  ∨ (a.score = b.score
      ∧ (b.date < a.date ∨ (a.date = b.date ∧ a.chunkIndex ≤ b.chunkIndex)))

instance decDocLE : DecidableRel docLE := fun a b => by
  unfold docLE
  infer_instance

instance totalDocLE : IsTotal RetrievedDoc docLE := ⟨by
  intro a b
  unfold docLE
  rcases lt_trichotomy a.score b.score with h | h | h
  · exact Or.inr (Or.inl h)
  · rcases lt_trichotomy a.date b.date with h2 | h2 | h2
    · exact Or.inr (Or.inr ⟨h.symm, Or.inl h2⟩)
    · rcases Nat.le_total a.chunkIndex b.chunkIndex with h3 | h3
      · exact Or.inl (Or.inr ⟨h, Or.inr ⟨h2, h3⟩⟩)
      · exact Or.inr (Or.inr ⟨h.symm, Or.inr ⟨h2.symm, h3⟩⟩)
    · exact Or.inl (Or.inr ⟨h, Or.inl h2⟩)
  · exact Or.inl (Or.inl h)⟩

instance transDocLE : IsTrans RetrievedDoc docLE := ⟨by
  intro a b c hab hbc
  unfold docLE at hab hbc ⊢
  rcases hab with h1 | ⟨e1, t1⟩
  · rcases hbc with h2 | ⟨e2, t2⟩
    · exact Or.inl (lt_trans h2 h1)
    · exact Or.inl (by rw [← e2]; exact h1)
  · rcases hbc with h2 | ⟨e2, t2⟩
    · exact Or.inl (by rw [e1]; exact h2)
    · refine Or.inr ⟨e1.trans e2, ?_⟩
      rcases t1 with d1 | ⟨f1, i1⟩
      · rcases t2 with d2 | ⟨f2, i2⟩
        · exact Or.inl (Nat.lt_trans d2 d1)
        · exact Or.inl (by omega)
      · rcases t2 with d2 | ⟨f2, i2⟩
        · exact Or.inl (by omega)
        · exact Or.inr ⟨f1.trans f2, Nat.le_trans i1 i2⟩⟩

/-- Pick the doc that ranks first of the two. -/
def betterDoc (a b : RetrievedDoc) : RetrievedDoc :=
  if docLE a b then a else b

/-- Modelled from the spec (4.4 step 4): deduplicate by `entryId`,
keeping only the best-ranked doc per entry. -/
def dedupByEntry : List RetrievedDoc → List RetrievedDoc
  | [] => []
  | d :: rest =>
      ((rest.filter (fun x => x.entryId == d.entryId)).foldl betterDoc d)
        :: dedupByEntry (rest.filter (fun x => x.entryId != d.entryId))
termination_by l => l.length
decreasing_by
  have h := List.length_filter_le (fun x => x.entryId != d.entryId) rest
  simp only [List.length_cons]
  omega

/-- Modelled from the spec: `retrieve(userId, query, k)` — score the
user's chunks with the fused keyword/vector/recency formula, drop the
docs at or below the minimum relevance floor, deduplicate by entry, rank
by fused score descending with the recency/chunk-index tie-break, return
at most `k` docs, and flag the result set degraded exactly when the
Embedding Provider is unavailable. -/
def retrieve (idx : IndexStore) (emb : Option EmbeddingProvider) (now : Nat)
    (uid query : String) (k : Nat) : List RetrievedDoc × Bool :=
  let floored := (candidates idx emb now uid query).filter
    (fun d => minRelevanceFloor < d.score)
  let ranked := List.insertionSort docLE (dedupByEntry floored)
  (ranked.take k, emb.isNone)

end SpecModel

/-! ## Claim C3 -/

namespace SpecModel

/-- When the user owns no entry, every chunk's entry lookup fails, so the
candidate list is empty. -/
theorem candidates_eq_nil_of_no_entries (idx : IndexStore)
    (emb : Option EmbeddingProvider) (now : Nat) (uid query : String)
    (h : idx.entries.filter (fun e => e.userId == uid) = []) :
    candidates idx emb now uid query = [] := by
  have hall : ∀ e ∈ idx.entries, ¬((e.userId == uid) = true) :=
    List.filter_eq_nil.mp h
  unfold candidates
  rw [List.filterMap_eq_nil]
  intro c _
  by_cases hc : (c.userId == uid) = true
  · simp only [hc, if_true]
    have hfind : idx.entries.find?
        (fun e => e.id == c.entryId && e.userId == uid) = none := by
      rw [List.find?_eq_none]
      intro e he
      simp only [Bool.and_eq_true]
      intro ⟨_, h2⟩
      exact hall e he h2
    rw [hfind]
  · simp [hc]

/-- C3: for every index, provider state, user, query and limit `k`,
`retrieve` returns at most `k` results, the results are sorted by fused
score descending with ties broken by more-recent date then lower chunk
index (the `docLE` order), and the result is the empty list — not an
error — both when the user has no entries and when no candidate scores
above the minimum relevance floor. -/
theorem c3_retrieve_contract (idx : IndexStore)
    (emb : Option EmbeddingProvider) (now : Nat) (uid query : String)
    (k : Nat) :
    (retrieve idx emb now uid query k).1.length ≤ k
    ∧ List.Sorted docLE (retrieve idx emb now uid query k).1
    ∧ (idx.entries.filter (fun e => e.userId == uid) = [] →
        (retrieve idx emb now uid query k).1 = [])
    ∧ ((∀ d ∈ candidates idx emb now uid query,
          d.score ≤ minRelevanceFloor) →
        (retrieve idx emb now uid query k).1 = []) := by
  refine ⟨?_, ?_, ?_, ?_⟩
  · simpa [retrieve] using
      List.length_take_le k
        (List.insertionSort docLE (dedupByEntry
          ((candidates idx emb now uid query).filter
            (fun d => minRelevanceFloor < d.score))))
  · have hs := List.sorted_insertionSort docLE
      (dedupByEntry ((candidates idx emb now uid query).filter
        (fun d => minRelevanceFloor < d.score)))
    exact List.Pairwise.sublist (List.take_sublist k _) hs
  · intro h
    simp [retrieve, candidates_eq_nil_of_no_entries idx emb now uid query h,
      dedupByEntry]
  · intro h
    have hfloor : (candidates idx emb now uid query).filter
        (fun d => minRelevanceFloor < d.score) = [] := by
      rw [List.filter_eq_nil]
      intro d hd
      simp only [decide_eq_true_eq, not_lt]
      exact h d hd
    simp [retrieve, hfloor, dedupByEntry]

/-- Witness for C3 at the empty index: the hypotheses of both
empty-result conjuncts hold there, and indeed nothing is returned. -/
theorem c3_witness :
    (retrieve ⟨[], []⟩ none 0 "u" "q" 3).1 = []
    ∧ (retrieve ⟨[], []⟩ none 0 "u" "q" 3).1.length ≤ 3
    ∧ (retrieve ⟨[], []⟩ none 0 "u" "q" 3).1 = [] :=
  ⟨(c3_retrieve_contract ⟨[], []⟩ none 0 "u" "q" 3).2.2.1 rfl,
   (c3_retrieve_contract ⟨[], []⟩ none 0 "u" "q" 3).1,
   (c3_retrieve_contract ⟨[], []⟩ none 0 "u" "q" 3).2.2.2
     (fun d hd => absurd hd (by simp [candidates]))⟩

end SpecModel
